import Mathlib

/-!
Shallow embedding of the svgr_types package (src/src/index.ts).

The source file holds two variants of the module: a plain one (lines 1-57)
and a documented one (lines 58-255).  Both define the same two envelope
constructors, `successResponse` and `errorResponse`, over the shared
`BaseResponse` shape imported from the foundation package, plus the
`ConvertRequest` / `ConvertResult` contract shapes.  We embed the two
variants as namespaces `V1` and `V2`.

The constructors read the wall clock once (`new Date().toISOString()`);
we model the clock read as an explicit parameter `now`, a number of
milliseconds since the Unix epoch, and `toISOString` as a Lean model of
the ECMAScript `Date.prototype.toISOString` builtin: the proleptic
Gregorian calendar date of the instant, rendered as a zero-padded
ISO-8601 string `YYYY-MM-DDTHH:mm:ss.sssZ`.  The model is faithful for
instants whose year has at most four digits; `maxInstant` below is a
lower bound on the first instant outside that range.
-/

/-- Gregorian leap-year predicate, as in ECMAScripts calendar. -/
def isLeap (y : Nat) : Bool :=
  (y % 4 == 0 && y % 100 != 0) || y % 400 == 0

/-- Number of days of year `y`. -/
def yearLength (y : Nat) : Nat :=
  if isLeap y then 366 else 365

/-- Month lengths of a year, leap or not. -/
def monthLengths (leap : Bool) : List Nat :=
  [31, if leap then 29 else 28, 31, 30, 31, 30, 31, 31, 30, 31, 30, 31]

/-- Fuelled scan from year `y`: consume `d` days year by year, returning
the final year and the day-of-year remainder.  One unit of fuel per year
suffices whenever `d ≤ 365 * fuel`. -/
def yearAndDoyAux : Nat → Nat → Nat → Nat × Nat
  | 0, y, d => (y, d)
  | fuel + 1, y, d =>
    if d < yearLength y then (y, d) else yearAndDoyAux fuel (y + 1) (d - yearLength y)

/-- Year and zero-based day-of-year of day number `d` (days since 1970-01-01). -/
def yearAndDoy (d : Nat) : Nat × Nat :=
  yearAndDoyAux d 1970 d

/-- Consume a day count against a list of month lengths, returning the
zero-based index of the month reached and the day remainder within it. -/
def splitMonths : List Nat → Nat → Nat × Nat
  | [], d => (0, d)
  | len :: rest, d =>
    if d < len then (0, d)
    else
      let p := splitMonths rest (d - len)
      (p.1 + 1, p.2)

/-- Civil date `(year, month, day)` (month and day one-based) of a day
number counted from 1970-01-01, per the Gregorian calendar. -/
def civilFromDays (days : Nat) : Nat × Nat × Nat :=
  let yd := yearAndDoy days
  let md := splitMonths (monthLengths (isLeap yd.1)) yd.2
  (yd.1, md.1 + 1, md.2 + 1)

/-- Two-digit zero-padded decimal rendering (faithful for `n < 100`). -/
def pad2 (n : Nat) : List Char :=
  [Nat.digitChar (n / 10 % 10), Nat.digitChar (n % 10)]

/-- Three-digit zero-padded decimal rendering (faithful for `n < 1000`). -/
def pad3 (n : Nat) : List Char :=
  [Nat.digitChar (n / 100 % 10), Nat.digitChar (n / 10 % 10), Nat.digitChar (n % 10)]

/-- Four-digit zero-padded decimal rendering (faithful for `n < 10000`). -/
def pad4 (n : Nat) : List Char :=
  [Nat.digitChar (n / 1000 % 10), Nat.digitChar (n / 100 % 10),
   Nat.digitChar (n / 10 % 10), Nat.digitChar (n % 10)]

/-- Character list of the ISO-8601 rendering of the instant `t`
(milliseconds since the Unix epoch). -/
def isoChars (t : Nat) : List Char :=
  pad4 (civilFromDays (t / 86400000)).1 ++ ['-'] ++
  pad2 (civilFromDays (t / 86400000)).2.1 ++ ['-'] ++
  pad2 (civilFromDays (t / 86400000)).2.2 ++ ['T'] ++
  pad2 (t % 86400000 / 3600000) ++ [':'] ++
  pad2 (t % 86400000 / 60000 % 60) ++ [':'] ++
  pad2 (t % 86400000 / 1000 % 60) ++ ['.'] ++
  pad3 (t % 1000) ++ ['Z']

/-- Model of ECMAScript `Date.prototype.toISOString` on the instant `t`. -/
def toISOString (t : Nat) : String :=
  String.mk (isoChars t)

/-- First instant the four-digit-year model no longer covers is at least
this bound (365 days per year times 8030 years times 86400000 ms). -/
def maxInstant : Nat := 253234080000000

/-- The `BaseResponse<T>` envelope shape from the foundation package
(re-exported by both variants): a success discriminant, an optional
payload, an optional error text and a required timestamp.  A TypeScript
field that is absent is `none` here. -/
structure BaseResponse (T : Type) where
  success : Bool
  data : Option T
  error : Option String
  timestamp : String
deriving DecidableEq

namespace V1

/-- The `ConvertRequest` shape of the first variant (lines 11-16):
required `original`, optional `filename`. -/
structure ConvertRequest where
  original : String
  filename : Option String
deriving DecidableEq

/-- The `ConvertResult` shape (lines 23-30). -/
structure ConvertResult where
  svg : String
  width : Int
  height : Int
deriving DecidableEq

/-- The `ConvertResponse` alias (line 37). -/
def ConvertResponse : Type := BaseResponse ConvertResult

/-- The `successResponse` helper of the first variant (lines 43-49),
with the single wall-clock read passed in as `now`. -/
def successResponse {T : Type} (now : Nat) (data : T) : BaseResponse T :=
  { success := true, data := some data, error := none, timestamp := toISOString now }

/-- The `errorResponse` helper of the first variant (lines 51-57). -/
def errorResponse (now : Nat) (error : String) : BaseResponse Empty :=
  { success := false, data := none, error := some error, timestamp := toISOString now }

end V1

namespace V2

/-- The `ConvertRequest` shape of the documented variant (lines 95-104):
required `original`, optional `filename`, `quality`, `transparentBg`. -/
structure ConvertRequest where
  original : String
  filename : Option String
  quality : Option Int
  transparentBg : Option Bool
deriving DecidableEq

/-- The `ConvertResult` shape (lines 127-134). -/
structure ConvertResult where
  svg : String
  width : Int
  height : Int
deriving DecidableEq

/-- The `ConvertResponse` alias (line 171). -/
def ConvertResponse : Type := BaseResponse ConvertResult

/-- The `successResponse` helper of the documented variant (lines 211-217). -/
def successResponse {T : Type} (now : Nat) (data : T) : BaseResponse T :=
  { success := true, data := some data, error := none, timestamp := toISOString now }

/-- The `errorResponse` helper of the documented variant (lines 249-255). -/
def errorResponse (now : Nat) (error : String) : BaseResponse Empty :=
  { success := false, data := none, error := some error, timestamp := toISOString now }

end V2

/-- The envelope invariant of the spec: the payload is present exactly
when the discriminant is true, the error text exactly when it is false. -/
def envelopeInvariant {T : Type} (r : BaseResponse T) : Prop :=
  r.data.isSome = r.success ∧ r.error.isSome = !r.success

/-- Decision procedure for the ISO-8601 millisecond timestamp shape
`YYYY-MM-DDTHH:mm:ss.sssZ`: 24 characters, digits and fixed punctuation
at the expected positions. -/
def isIsoMsFormat (s : String) : Bool :=
  match s.data with
  | [y1, y2, y3, y4, p1, a1, a2, p2, b1, b2, tt, c1, c2, q1, d1, d2, q2, e1, e2, q3,
     f1, f2, f3, zz] =>
    y1.isDigit && y2.isDigit && y3.isDigit && y4.isDigit && p1 == '-' &&
    a1.isDigit && a2.isDigit && p2 == '-' && b1.isDigit && b2.isDigit &&
    tt == 'T' && c1.isDigit && c2.isDigit && q1 == ':' && d1.isDigit && d2.isDigit &&
    q2 == ':' && e1.isDigit && e2.isDigit && q3 == '.' &&
    f1.isDigit && f2.isDigit && f3.isDigit && zz == 'Z'
  | _ => false

/-- Lexicographic less-or-equal on character lists: strictly smaller in
the lexicographic order, or equal. -/
def lexLe (l1 l2 : List Char) : Prop :=
  List.Lex (fun a b : Char => a < b) l1 l2 ∨ l1 = l2

/-! Helper lemmas about digit characters and lexicographic order. -/

theorem digitChar_isDigit (n : Nat) : (Nat.digitChar (n % 10)).isDigit = true := by
  have h : n % 10 < 10 := Nat.mod_lt _ (by norm_num)
  set k := n % 10 with hk
  interval_cases k <;> decide

theorem digitChar_lt_digitChar {a b : Nat} (ha : a < 10) (hb : b < 10) (h : a < b) :
    Nat.digitChar a < Nat.digitChar b := by
  interval_cases a <;> interval_cases b <;> decide

theorem lex_append_left {l1 l2 : List Char} (r1 r2 : List Char)
    (hlen : l1.length = l2.length)
    (h : List.Lex (fun a b : Char => a < b) l1 l2) :
    List.Lex (fun a b : Char => a < b) (l1 ++ r1) (l2 ++ r2) := by
  revert hlen
  induction h with
  | nil => intro hlen; simp at hlen
  | rel hab => intro _; exact List.Lex.rel hab
  | cons h ih => intro hlen; exact List.Lex.cons (ih (by simpa using hlen))

theorem lex_append_right (l : List Char) {r1 r2 : List Char}
    (h : List.Lex (fun a b : Char => a < b) r1 r2) :
    List.Lex (fun a b : Char => a < b) (l ++ r1) (l ++ r2) := by
  induction l with
  | nil => simpa using h
  | cons a l ih => exact List.Lex.cons ih

theorem lexLe_append_strict {l1 l2 : List Char} (r1 r2 : List Char)
    (hlen : l1.length = l2.length)
    (h : List.Lex (fun a b : Char => a < b) l1 l2) :
    lexLe (l1 ++ r1) (l2 ++ r2) :=
  Or.inl (lex_append_left r1 r2 hlen h)

theorem lexLe_append_eq (l : List Char) {r1 r2 : List Char} (hr : lexLe r1 r2) :
    lexLe (l ++ r1) (l ++ r2) := by
  rcases hr with hr | rfl
  · exact Or.inl (lex_append_right l hr)
  · exact Or.inr rfl

theorem pad2_lt {a b : Nat} (h : a < b) (hb : b < 100) :
    List.Lex (fun a b : Char => a < b) (pad2 a) (pad2 b) := by
  have hcase : a / 10 % 10 < b / 10 % 10 ∨
      (a / 10 % 10 = b / 10 % 10 ∧ a % 10 < b % 10) := by omega
  unfold pad2
  rcases hcase with hc | ⟨hc1, hc2⟩
  · exact List.Lex.rel (digitChar_lt_digitChar (by omega) (by omega) hc)
  · rw [hc1]
    exact List.Lex.cons (List.Lex.rel (digitChar_lt_digitChar (by omega) (by omega) hc2))

theorem pad3_lt {a b : Nat} (h : a < b) (hb : b < 1000) :
    List.Lex (fun a b : Char => a < b) (pad3 a) (pad3 b) := by
  have hcase : a / 100 % 10 < b / 100 % 10 ∨
      (a / 100 % 10 = b / 100 % 10 ∧ (a / 10 % 10 < b / 10 % 10 ∨
        (a / 10 % 10 = b / 10 % 10 ∧ a % 10 < b % 10))) := by omega
  unfold pad3
  rcases hcase with hc | ⟨hc1, hc | ⟨hc2, hc3⟩⟩
  · exact List.Lex.rel (digitChar_lt_digitChar (by omega) (by omega) hc)
  · rw [hc1]
    exact List.Lex.cons (List.Lex.rel (digitChar_lt_digitChar (by omega) (by omega) hc))
  · rw [hc1, hc2]
    exact List.Lex.cons (List.Lex.cons
      (List.Lex.rel (digitChar_lt_digitChar (by omega) (by omega) hc3)))

theorem pad4_lt {a b : Nat} (h : a < b) (hb : b < 10000) :
    List.Lex (fun a b : Char => a < b) (pad4 a) (pad4 b) := by
  unfold pad4
  have hsplit : a / 100 < b / 100 ∨ (a / 100 = b / 100 ∧ a % 100 < b % 100) := by omega
  rcases hsplit with hc | ⟨hc1, hc2⟩
  · have hcase : a / 1000 % 10 < b / 1000 % 10 ∨
        (a / 1000 % 10 = b / 1000 % 10 ∧ a / 100 % 10 < b / 100 % 10) := by omega
    rcases hcase with hd | ⟨hd1, hd2⟩
    · exact List.Lex.rel (digitChar_lt_digitChar (by omega) (by omega) hd)
    · rw [hd1]
      exact List.Lex.cons (List.Lex.rel (digitChar_lt_digitChar (by omega) (by omega) hd2))
  · have he1 : a / 1000 % 10 = b / 1000 % 10 := by omega
    have he2 : a / 100 % 10 = b / 100 % 10 := by omega
    have hcase : a / 10 % 10 < b / 10 % 10 ∨
        (a / 10 % 10 = b / 10 % 10 ∧ a % 10 < b % 10) := by omega
    rcases hcase with hd | ⟨hd1, hd2⟩
    · rw [he1, he2]
      exact List.Lex.cons (List.Lex.cons
        (List.Lex.rel (digitChar_lt_digitChar (by omega) (by omega) hd)))
    · rw [he1, he2, hd1]
      exact List.Lex.cons (List.Lex.cons (List.Lex.cons
        (List.Lex.rel (digitChar_lt_digitChar (by omega) (by omega) hd2))))

/-! Helper lemmas about the calendar scan. -/

theorem yearLength_ge (y : Nat) : 365 ≤ yearLength y := by
  unfold yearLength
  split <;> omega

theorem yearAndDoyAux_succ (fuel y d : Nat) :
    yearAndDoyAux (fuel + 1) y d =
      if d < yearLength y then (y, d) else yearAndDoyAux fuel (y + 1) (d - yearLength y) :=
  rfl

theorem yearAndDoyAux_year_ge (fuel : Nat) :
    ∀ y d, y ≤ (yearAndDoyAux fuel y d).1 := by
  induction fuel with
  | zero => intro y d; exact le_rfl
  | succ fuel ih =>
    intro y d
    rw [yearAndDoyAux_succ]
    split
    · exact le_rfl
    · exact le_trans (by omega) (ih (y + 1) (d - yearLength y))

theorem yearAndDoyAux_zero_d (fuel y : Nat) : yearAndDoyAux fuel y 0 = (y, 0) := by
  cases fuel with
  | zero => rfl
  | succ fuel =>
    rw [yearAndDoyAux_succ, if_pos]
    have := yearLength_ge y
    omega

theorem yearAndDoyAux_fuel_eq : ∀ fuel1 fuel2 y d, d ≤ 365 * fuel1 → d ≤ 365 * fuel2 →
    yearAndDoyAux fuel1 y d = yearAndDoyAux fuel2 y d := by
  intro fuel1
  induction fuel1 with
  | zero =>
    intro fuel2 y d h1 h2
    have hd : d = 0 := by omega
    subst hd
    rw [yearAndDoyAux_zero_d, yearAndDoyAux_zero_d]
  | succ f ih =>
    intro fuel2 y d h1 h2
    cases fuel2 with
    | zero =>
      have hd : d = 0 := by omega
      subst hd
      rw [yearAndDoyAux_zero_d, yearAndDoyAux_zero_d]
    | succ g =>
      rw [yearAndDoyAux_succ, yearAndDoyAux_succ]
      by_cases hd : d < yearLength y
      · rw [if_pos hd, if_pos hd]
      · rw [if_neg hd, if_neg hd]
        have hL := yearLength_ge y
        exact ih g (y + 1) (d - yearLength y) (by omega) (by omega)

theorem yearAndDoyAux_strict_mono (fuel : Nat) : ∀ y d1 d2, d1 < d2 →
    (yearAndDoyAux fuel y d1).1 < (yearAndDoyAux fuel y d2).1 ∨
    ((yearAndDoyAux fuel y d1).1 = (yearAndDoyAux fuel y d2).1 ∧
      (yearAndDoyAux fuel y d1).2 < (yearAndDoyAux fuel y d2).2) := by
  induction fuel with
  | zero => intro y d1 d2 h; exact Or.inr ⟨rfl, h⟩
  | succ fuel ih =>
    intro y d1 d2 h
    rw [yearAndDoyAux_succ, yearAndDoyAux_succ]
    by_cases h1 : d1 < yearLength y
    · by_cases h2 : d2 < yearLength y
      · rw [if_pos h1, if_pos h2]
        exact Or.inr ⟨rfl, h⟩
      · rw [if_pos h1, if_neg h2]
        exact Or.inl (lt_of_lt_of_le (by omega)
          (yearAndDoyAux_year_ge fuel (y + 1) (d2 - yearLength y)))
    · have h2 : ¬ d2 < yearLength y := by omega
      rw [if_neg h1, if_neg h2]
      exact ih (y + 1) _ _ (by omega)

theorem yearAndDoyAux_doy_lt (fuel : Nat) : ∀ y d, d ≤ 365 * fuel →
    (yearAndDoyAux fuel y d).2 < yearLength (yearAndDoyAux fuel y d).1 := by
  induction fuel with
  | zero =>
    intro y d hd
    have hd0 : d = 0 := by omega
    subst hd0
    have := yearLength_ge y
    show (0 : Nat) < yearLength y
    omega
  | succ fuel ih =>
    intro y d hd
    rw [yearAndDoyAux_succ]
    by_cases h1 : d < yearLength y
    · rw [if_pos h1]
      exact h1
    · rw [if_neg h1]
      have hL := yearLength_ge y
      exact ih (y + 1) (d - yearLength y) (by omega)

theorem yearAndDoyAux_lower (fuel : Nat) : ∀ y d,
    365 * ((yearAndDoyAux fuel y d).1 - y) ≤ d := by
  induction fuel with
  | zero => intro y d; simp [yearAndDoyAux]
  | succ fuel ih =>
    intro y d
    rw [yearAndDoyAux_succ]
    by_cases h1 : d < yearLength y
    · rw [if_pos h1]
      simp
    · rw [if_neg h1]
      have hy := yearAndDoyAux_year_ge fuel (y + 1) (d - yearLength y)
      have hi := ih (y + 1) (d - yearLength y)
      have hL := yearLength_ge y
      omega

/-! Helper lemmas about the month scan. -/

theorem splitMonths_cons (len : Nat) (rest : List Nat) (d : Nat) :
    splitMonths (len :: rest) d =
      if d < len then (0, d)
      else ((splitMonths rest (d - len)).1 + 1, (splitMonths rest (d - len)).2) :=
  rfl

theorem splitMonths_strict_mono : ∀ (lens : List Nat) (d1 d2 : Nat), d1 < d2 →
    (splitMonths lens d1).1 < (splitMonths lens d2).1 ∨
    ((splitMonths lens d1).1 = (splitMonths lens d2).1 ∧
      (splitMonths lens d1).2 < (splitMonths lens d2).2) := by
  intro lens
  induction lens with
  | nil => intro d1 d2 h; exact Or.inr ⟨rfl, h⟩
  | cons len rest ih =>
    intro d1 d2 h
    rw [splitMonths_cons, splitMonths_cons]
    by_cases h1 : d1 < len
    · by_cases h2 : d2 < len
      · rw [if_pos h1, if_pos h2]
        exact Or.inr ⟨rfl, h⟩
      · rw [if_pos h1, if_neg h2]
        exact Or.inl (Nat.succ_pos _)
    · have h2 : ¬ d2 < len := by omega
      rw [if_neg h1, if_neg h2]
      rcases ih (d1 - len) (d2 - len) (by omega) with hy | ⟨hy1, hy2⟩
      · exact Or.inl (by omega)
      · exact Or.inr ⟨by omega, hy2⟩

theorem splitMonths_idx_lt : ∀ (lens : List Nat) (d : Nat), d < lens.sum →
    (splitMonths lens d).1 < lens.length := by
  intro lens
  induction lens with
  | nil => intro d hd; simp at hd
  | cons len rest ih =>
    intro d hd
    rw [splitMonths_cons]
    by_cases h1 : d < len
    · rw [if_pos h1]
      simp
    · rw [if_neg h1]
      have : d - len < rest.sum := by simp [List.sum_cons] at hd; omega
      have := ih (d - len) this
      simp
      omega

theorem splitMonths_rem_lt : ∀ (lens : List Nat) (d : Nat), (∀ x ∈ lens, x ≤ 31) →
    d < lens.sum → (splitMonths lens d).2 < 31 := by
  intro lens
  induction lens with
  | nil => intro d _ hd; simp at hd
  | cons len rest ih =>
    intro d hall hd
    rw [splitMonths_cons]
    by_cases h1 : d < len
    · rw [if_pos h1]
      have : len ≤ 31 := hall len (by simp)
      omega
    · rw [if_neg h1]
      have hrest : ∀ x ∈ rest, x ≤ 31 := fun x hx => hall x (by simp [hx])
      have : d - len < rest.sum := by simp [List.sum_cons] at hd; omega
      exact ih (d - len) hrest this

theorem monthLengths_sum (y : Nat) : (monthLengths (isLeap y)).sum = yearLength y := by
  unfold yearLength
  cases h : isLeap y <;> simp [monthLengths, h]

theorem monthLengths_le (leap : Bool) : ∀ x ∈ monthLengths leap, x ≤ 31 := by
  cases leap <;> decide

theorem monthLengths_length (leap : Bool) : (monthLengths leap).length = 12 := by
  cases leap <;> rfl

/-! Helper lemmas about the civil date and the rendered string. -/

theorem civilFromDays_fst (days : Nat) :
    (civilFromDays days).1 = (yearAndDoyAux days 1970 days).1 := rfl

theorem civilFromDays_month (days : Nat) :
    (civilFromDays days).2.1 =
      (splitMonths (monthLengths (isLeap (yearAndDoyAux days 1970 days).1))
        (yearAndDoyAux days 1970 days).2).1 + 1 := rfl

theorem civilFromDays_day (days : Nat) :
    (civilFromDays days).2.2 =
      (splitMonths (monthLengths (isLeap (yearAndDoyAux days 1970 days).1))
        (yearAndDoyAux days 1970 days).2).2 + 1 := rfl

theorem civilFromDays_year_lt (days : Nat) (hd : days < 2930950) :
    (civilFromDays days).1 < 10000 := by
  rw [civilFromDays_fst]
  have hl := yearAndDoyAux_lower days 1970 days
  omega

theorem doy_lt_yearLength (days : Nat) :
    (yearAndDoyAux days 1970 days).2 < yearLength (yearAndDoyAux days 1970 days).1 :=
  yearAndDoyAux_doy_lt days 1970 days (by omega)

theorem civilFromDays_month_le (days : Nat) : (civilFromDays days).2.1 ≤ 12 := by
  rw [civilFromDays_month]
  have hdoy := doy_lt_yearLength days
  have hsum := monthLengths_sum (yearAndDoyAux days 1970 days).1
  have hidx := splitMonths_idx_lt (monthLengths (isLeap (yearAndDoyAux days 1970 days).1))
    (yearAndDoyAux days 1970 days).2 (by rw [hsum]; exact hdoy)
  have hlen := monthLengths_length (isLeap (yearAndDoyAux days 1970 days).1)
  omega

theorem civilFromDays_day_le (days : Nat) : (civilFromDays days).2.2 ≤ 31 := by
  rw [civilFromDays_day]
  have hdoy := doy_lt_yearLength days
  have hsum := monthLengths_sum (yearAndDoyAux days 1970 days).1
  have hrem := splitMonths_rem_lt (monthLengths (isLeap (yearAndDoyAux days 1970 days).1))
    (yearAndDoyAux days 1970 days).2
    (monthLengths_le (isLeap (yearAndDoyAux days 1970 days).1))
    (by rw [hsum]; exact hdoy)
  omega

theorem civilFromDays_strict_mono {d1 d2 : Nat} (h : d1 < d2) :
    (civilFromDays d1).1 < (civilFromDays d2).1 ∨
    ((civilFromDays d1).1 = (civilFromDays d2).1 ∧
      ((civilFromDays d1).2.1 < (civilFromDays d2).2.1 ∨
        ((civilFromDays d1).2.1 = (civilFromDays d2).2.1 ∧
          (civilFromDays d1).2.2 < (civilFromDays d2).2.2))) := by
  have hfe : yearAndDoyAux d1 1970 d1 = yearAndDoyAux d2 1970 d1 :=
    yearAndDoyAux_fuel_eq d1 d2 1970 d1 (by omega) (by omega)
  have hm := yearAndDoyAux_strict_mono d2 1970 d1 d2 h
  rw [civilFromDays_fst, civilFromDays_fst, civilFromDays_month, civilFromDays_month,
    civilFromDays_day, civilFromDays_day, hfe]
  rcases hm with hy | ⟨hy, hdoy⟩
  · exact Or.inl hy
  · rw [hy]
    refine Or.inr ⟨rfl, ?_⟩
    rcases splitMonths_strict_mono (monthLengths (isLeap (yearAndDoyAux d2 1970 d2).1))
        (yearAndDoyAux d2 1970 d1).2 (yearAndDoyAux d2 1970 d2).2 hdoy with hmo | ⟨hmo1, hmo2⟩
    · exact Or.inl (by omega)
    · exact Or.inr ⟨by omega, by omega⟩

theorem isoChars_lexLe {t1 t2 : Nat} (h : t1 ≤ t2) (hb : t2 < maxInstant) :
    lexLe (isoChars t1) (isoChars t2) := by
  have hdd : t1 / 86400000 ≤ t2 / 86400000 := Nat.div_le_div_right h
  have hdb : t2 / 86400000 < 2930950 := by
    unfold maxInstant at hb
    omega
  rcases Nat.lt_or_ge (t1 / 86400000) (t2 / 86400000) with hlt | hge
  · have hy2 := civilFromDays_year_lt (t2 / 86400000) hdb
    have hm2 := civilFromDays_month_le (t2 / 86400000)
    have hd2 := civilFromDays_day_le (t2 / 86400000)
    have hmono := civilFromDays_strict_mono hlt
    unfold isoChars
    simp only [List.append_assoc]
    rcases hmono with hy | ⟨hyeq, hm | ⟨hmeq, hdy⟩⟩
    · exact lexLe_append_strict _ _ rfl (pad4_lt hy hy2)
    · rw [hyeq]
      apply lexLe_append_eq
      apply lexLe_append_eq
      exact lexLe_append_strict _ _ rfl (pad2_lt hm (by omega))
    · rw [hyeq, hmeq]
      apply lexLe_append_eq
      apply lexLe_append_eq
      apply lexLe_append_eq
      apply lexLe_append_eq
      exact lexLe_append_strict _ _ rfl (pad2_lt hdy (by omega))
  · have hdeq : t1 / 86400000 = t2 / 86400000 := by omega
    unfold isoChars
    rw [hdeq]
    simp only [List.append_assoc]
    apply lexLe_append_eq
    apply lexLe_append_eq
    apply lexLe_append_eq
    apply lexLe_append_eq
    apply lexLe_append_eq
    apply lexLe_append_eq
    rcases (by omega : t1 % 86400000 / 3600000 < t2 % 86400000 / 3600000 ∨
        (t1 % 86400000 / 3600000 = t2 % 86400000 / 3600000 ∧
          t1 % 3600000 ≤ t2 % 3600000)) with hH | ⟨hHeq, hremH⟩
    · exact lexLe_append_strict _ _ rfl (pad2_lt hH (by omega))
    · rw [hHeq]
      apply lexLe_append_eq
      apply lexLe_append_eq
      rcases (by omega : t1 % 86400000 / 60000 % 60 < t2 % 86400000 / 60000 % 60 ∨
          (t1 % 86400000 / 60000 % 60 = t2 % 86400000 / 60000 % 60 ∧
            t1 % 60000 ≤ t2 % 60000)) with hM | ⟨hMeq, hremM⟩
      · exact lexLe_append_strict _ _ rfl (pad2_lt hM (by omega))
      · rw [hMeq]
        apply lexLe_append_eq
        apply lexLe_append_eq
        rcases (by omega : t1 % 86400000 / 1000 % 60 < t2 % 86400000 / 1000 % 60 ∨
            (t1 % 86400000 / 1000 % 60 = t2 % 86400000 / 1000 % 60 ∧
              t1 % 1000 ≤ t2 % 1000)) with hS | ⟨hSeq, hremS⟩
        · exact lexLe_append_strict _ _ rfl (pad2_lt hS (by omega))
        · rw [hSeq]
          apply lexLe_append_eq
          apply lexLe_append_eq
          rcases Nat.lt_or_ge (t1 % 1000) (t2 % 1000) with hms | hms
          · exact lexLe_append_strict _ _ rfl (pad3_lt hms (by omega))
          · have hmseq : t1 % 1000 = t2 % 1000 := by omega
            rw [hmseq]
            exact Or.inr rfl

theorem toISOString_le {t1 t2 : Nat} (h : t1 ≤ t2) (hb : t2 < maxInstant) :
    toISOString t1 ≤ toISOString t2 := by
  rcases isoChars_lexLe h hb with hlex | heq
  · apply le_of_lt
    rw [String.lt_iff_toList_lt]
    exact hlex
  · apply le_of_eq
    show String.mk (isoChars t1) = String.mk (isoChars t2)
    rw [heq]

theorem toISOString_format (t : Nat) : isIsoMsFormat (toISOString t) = true := by
  unfold toISOString isoChars pad4 pad2 pad3
  simp only [List.cons_append, List.nil_append]
  simp [isIsoMsFormat, digitChar_isDigit]

/-! Claim theorems. -/

/-- C1: for every payload value v of any type T, both variants of
successResponse return an envelope whose success field is true and whose
data field is exactly the given payload v, identity-preserved. -/
theorem successResponse_success_and_data (T : Type) (now : Nat) (v : T) :
    (V1.successResponse now v).success = true ∧ (V1.successResponse now v).data = some v ∧
    (V2.successResponse now v).success = true ∧ (V2.successResponse now v).data = some v :=
  ⟨rfl, rfl, rfl, rfl⟩

/-- C2: for every text value s, including the empty string, both variants
of errorResponse return an envelope whose success field is false and whose
error field equals s exactly, verbatim. -/
theorem errorResponse_failure_and_verbatim (now : Nat) (s : String) :
    (V1.errorResponse now s).success = false ∧ (V1.errorResponse now s).error = some s ∧
    (V2.errorResponse now s).success = false ∧ (V2.errorResponse now s).error = some s :=
  ⟨rfl, rfl, rfl, rfl⟩

/-- C3: for every text value s, the envelope returned by errorResponse
carries no data field at all: the data field is none, so a structural
presence check on it is false. -/
theorem errorResponse_no_data (now : Nat) (s : String) :
    (V1.errorResponse now s).data = none ∧ (V1.errorResponse now s).data.isSome = false ∧
    (V2.errorResponse now s).data = none ∧ (V2.errorResponse now s).data.isSome = false :=
  ⟨rfl, rfl, rfl, rfl⟩

/-- C4: every envelope produced by either constructor of either variant
satisfies the invariant that the data field is present exactly when
success is true and the error field exactly when success is false, and
the timestamp field is always present (set to the clock read). -/
theorem envelope_invariant_holds (T : Type) (now : Nat) (v : T) (s : String) :
    (envelopeInvariant (V1.successResponse now v) ∧
      (V1.successResponse now v).timestamp = toISOString now) ∧
    (envelopeInvariant (V1.errorResponse now s) ∧
      (V1.errorResponse now s).timestamp = toISOString now) ∧
    (envelopeInvariant (V2.successResponse now v) ∧
      (V2.successResponse now v).timestamp = toISOString now) ∧
    (envelopeInvariant (V2.errorResponse now s) ∧
      (V2.errorResponse now s).timestamp = toISOString now) :=
  ⟨⟨⟨rfl, rfl⟩, rfl⟩, ⟨⟨rfl, rfl⟩, rfl⟩, ⟨⟨rfl, rfl⟩, rfl⟩, ⟨⟨rfl, rfl⟩, rfl⟩⟩

/-- C5: the timestamp of every envelope produced by either constructor is
the single clock read formatted as an ISO-8601 string with millisecond
precision of the form YYYY-MM-DDTHH:mm:ss.sssZ, and it lies between the
rendering of any instant just before the call and any instant just after
(for instants within the four-digit-year era). -/
theorem timestamp_format_and_window (T : Type) (tB now tA : Nat) (v : T) (s : String)
    (h1 : tB ≤ now) (h2 : now ≤ tA) (h3 : tA < maxInstant) :
    (V1.successResponse now v).timestamp = toISOString now ∧
    (V1.errorResponse now s).timestamp = toISOString now ∧
    (V2.successResponse now v).timestamp = toISOString now ∧
    (V2.errorResponse now s).timestamp = toISOString now ∧
    isIsoMsFormat (toISOString now) = true ∧
    toISOString tB ≤ toISOString now ∧ toISOString now ≤ toISOString tA :=
  ⟨rfl, rfl, rfl, rfl, toISOString_format now,
    toISOString_le h1 (by omega), toISOString_le h2 h3⟩

/-- Witness for C5 at the concrete instants 0 ≤ 1 ≤ 2. -/
theorem timestamp_format_and_window_witness :
    (V1.successResponse 1 (7 : Nat)).timestamp = toISOString 1 ∧
    (V1.errorResponse 1 "boom").timestamp = toISOString 1 ∧
    (V2.successResponse 1 (7 : Nat)).timestamp = toISOString 1 ∧
    (V2.errorResponse 1 "boom").timestamp = toISOString 1 ∧
    isIsoMsFormat (toISOString 1) = true ∧
    toISOString 0 ≤ toISOString 1 ∧ toISOString 1 ≤ toISOString 2 :=
  timestamp_format_and_window Nat 0 1 2 7 "boom" (by omega) (by omega) (by decide)

/-- C6: for any two calls to either constructor of either variant at
non-decreasing clock instants, the timestamp of the second envelope is
greater than or equal (lexicographically, hence chronologically) to the
timestamp of the first. -/
theorem produced_timestamps_monotone (T : Type) (now1 now2 : Nat) (v : T) (s : String)
    (h : now1 ≤ now2) (hb : now2 < maxInstant) :
    (V1.successResponse now1 v).timestamp ≤ (V1.successResponse now2 v).timestamp ∧
    (V1.successResponse now1 v).timestamp ≤ (V1.errorResponse now2 s).timestamp ∧
    (V1.errorResponse now1 s).timestamp ≤ (V1.successResponse now2 v).timestamp ∧
    (V1.errorResponse now1 s).timestamp ≤ (V1.errorResponse now2 s).timestamp ∧
    (V2.successResponse now1 v).timestamp ≤ (V2.successResponse now2 v).timestamp ∧
    (V2.successResponse now1 v).timestamp ≤ (V2.errorResponse now2 s).timestamp ∧
    (V2.errorResponse now1 s).timestamp ≤ (V2.successResponse now2 v).timestamp ∧
    (V2.errorResponse now1 s).timestamp ≤ (V2.errorResponse now2 s).timestamp := by
  have hle := toISOString_le h hb
  exact ⟨hle, hle, hle, hle, hle, hle, hle, hle⟩

/-- Witness for C6 at the concrete instants 0 ≤ 1. -/
theorem produced_timestamps_monotone_witness :
    (V1.successResponse 0 (7 : Nat)).timestamp ≤ (V1.successResponse 1 (7 : Nat)).timestamp ∧
    (V1.successResponse 0 (7 : Nat)).timestamp ≤ (V1.errorResponse 1 "e").timestamp ∧
    (V1.errorResponse 0 "e").timestamp ≤ (V1.successResponse 1 (7 : Nat)).timestamp ∧
    (V1.errorResponse 0 "e").timestamp ≤ (V1.errorResponse 1 "e").timestamp ∧
    (V2.successResponse 0 (7 : Nat)).timestamp ≤ (V2.successResponse 1 (7 : Nat)).timestamp ∧
    (V2.successResponse 0 (7 : Nat)).timestamp ≤ (V2.errorResponse 1 "e").timestamp ∧
    (V2.errorResponse 0 "e").timestamp ≤ (V2.successResponse 1 (7 : Nat)).timestamp ∧
    (V2.errorResponse 0 "e").timestamp ≤ (V2.errorResponse 1 "e").timestamp :=
  produced_timestamps_monotone Nat 0 1 7 "e" (by omega) (by decide)

/-- C7: both constructors of both variants are total: every input yields
an envelope, with no failing branch. -/
theorem constructors_total (T : Type) (now : Nat) (v : T) (s : String) :
    (∃ r : BaseResponse T, V1.successResponse now v = r) ∧
    (∃ r : BaseResponse Empty, V1.errorResponse now s = r) ∧
    (∃ r : BaseResponse T, V2.successResponse now v = r) ∧
    (∃ r : BaseResponse Empty, V2.errorResponse now s = r) :=
  ⟨⟨_, rfl⟩, ⟨_, rfl⟩, ⟨_, rfl⟩, ⟨_, rfl⟩⟩

/-- C8: a ConvertRequest with only the required field original set is a
valid instance of the declared shape: filename, quality and transparentBg
are all omittable in the documented variant, and filename in the plain
variant. -/
theorem convert_request_minimal (o : String) :
    (∃ r : V2.ConvertRequest, r.original = o ∧ r.filename = none ∧
      r.quality = none ∧ r.transparentBg = none) ∧
    (∃ r : V1.ConvertRequest, r.original = o ∧ r.filename = none) :=
  ⟨⟨⟨o, none, none, none⟩, rfl, rfl, rfl, rfl⟩, ⟨⟨o, none⟩, rfl, rfl⟩⟩

/-- C9: the two source variants of the module define extensionally equal
constructors: at every clock instant and input they produce structurally
equal envelopes. -/
theorem variants_extensionally_equal (T : Type) (now : Nat) (v : T) (s : String) :
    V1.successResponse now v = V2.successResponse now v ∧
    V1.errorResponse now s = V2.errorResponse now s :=
  ⟨rfl, rfl⟩

/-- C10: both constructors are deterministic up to the clock: calls with
structurally equal inputs at the same clock instant produce structurally
equal envelopes. -/
theorem constructors_deterministic (T : Type) (now1 now2 : Nat) (v1 v2 : T)
    (s1 s2 : String) (hn : now1 = now2) (hv : v1 = v2) (hs : s1 = s2) :
    V1.successResponse now1 v1 = V1.successResponse now2 v2 ∧
    V1.errorResponse now1 s1 = V1.errorResponse now2 s2 ∧
    V2.successResponse now1 v1 = V2.successResponse now2 v2 ∧
    V2.errorResponse now1 s1 = V2.errorResponse now2 s2 := by
  subst hn
  subst hv
  subst hs
  exact ⟨rfl, rfl, rfl, rfl⟩

/-- Witness for C10 at the concrete instant 5 with concrete inputs. -/
theorem constructors_deterministic_witness :
    V1.successResponse 5 (7 : Nat) = V1.successResponse 5 (7 : Nat) ∧
    V1.errorResponse 5 "e" = V1.errorResponse 5 "e" ∧
    V2.successResponse 5 (7 : Nat) = V2.successResponse 5 (7 : Nat) ∧
    V2.errorResponse 5 "e" = V2.errorResponse 5 "e" :=
  constructors_deterministic Nat 5 5 7 7 "e" "e" rfl rfl rfl
